import Mathlib

/-!
Shallow embedding of the go/runtime buildpack (cmd/go/runtime/main.go):
multi-source version resolution, release-catalog parsing, cache validation
and archive installation.  Pure functions mirror the Go functions; the
context effects (logging, HTTP, exec, layer metadata) are modelled by an
explicit environment, a layer state and an event trace.
-/

namespace GoRuntime

/-- Constants from cmd/go/runtime/main.go lines 33-40. -/
def goVersionURL : String := "https://golang.org/dl/?mode=json"

/-- Alternate catalog endpoint (main.go line 35). -/
def goAltVersionURL : String := "https://golang.google.cn/dl/?mode=json"

/-- Archive URL template (main.go line 36); the percent-s is substituted by sprintfS. -/
def goURL : String := "https://dl.google.com/go/go%s.linux-amd64.tar.gz"

/-- Alternate archive URL template (main.go line 37). -/
def goAltURL : String := "https://golang.google.cn/dl/go%s.linux-amd64.tar.gz"

/-- Layer name constant (main.go line 38). -/
def goLayer : String := "go"

/-- Metadata key constant (main.go line 39). -/
def versionKey : String := "version"

/-- Modelled from the spec: pkg/env is not part of the sources given, so the
name of the well-known override environment variable (env.RuntimeVersion) is
taken from the spec's "designated override variable"; only its identity, not
its value, matters to the claims. -/
def envRuntimeVersion : String := "GOOGLE_RUNTIME_VERSION"

/-- Substitution of the first percent-s verb of a format template, the only
use fmt.Sprintf is put to in this file (main.go lines 73-74). -/
def sprintfSChars (t : List Char) (v : String) : List Char :=
  match t with
  | [] => []
  | '%' :: 's' :: rest => v.data ++ rest
  | c :: rest => c :: sprintfSChars rest v

/-- fmt.Sprintf with a single percent-s verb. -/
def sprintfS (t v : String) : String := String.mk (sprintfSChars t.data v)

/-- strings.TrimPrefix(s, "go") as used at main.go line 140: drops a leading
"go" if present, otherwise returns the string unchanged. -/
def trimGoPre (s : String) : String :=
  match s.data with
  | 'g' :: 'o' :: rest => String.mk rest
  | _ => s

/-- The percent-q verb of fmt: the URL strings used here contain no characters
needing escapes, so quoting is wrapping in double quotes. -/
def quoteQ (s : String) : String := "\"" ++ s ++ "\""

/-- Boolean test that p is an initial segment of s. -/
def leadsChars : List Char → List Char → Bool
  | [], _ => true
  | _ :: _, [] => false
  | a :: ps, b :: ss => a = b && leadsChars ps ss

/-- Boolean substring test on character lists. -/
def containsChars : List Char → List Char → Bool
  | [], sub => sub.isEmpty
  | c :: cs, sub => leadsChars sub (c :: cs) || containsChars cs sub

/-- Boolean substring test on strings: does s contain sub? -/
def containsStr (s sub : String) : Bool := containsChars s.data sub.data

/-- A release record of the catalog JSON (main.go lines 113-116). -/
structure Release where
  version : String
  stable : Bool
deriving DecidableEq

/-! JSON decoding.  encoding/json's Unmarshal into goReleases is Go standard
library behaviour, external to the repository; it is embedded here for the
subset of JSON the catalog uses: whitespace, arrays, objects with lower-case
keys matched exactly, strings with the single-character escapes, booleans,
numbers and null.  Unknown object fields are skipped; a non-string "version"
or non-boolean "stable" is a decode error, as in Go.  The decoder is slightly
more lenient than Go on trailing commas, which no claim depends on. -/

/-- Left brace character, by code point. -/
def lbraceC : Char := Char.ofNat 123

/-- Right brace character, by code point. -/
def rbraceC : Char := Char.ofNat 125

/-- Whitespace as accepted between JSON tokens. -/
def isWsC (c : Char) : Bool := c = ' ' || c = '\t' || c = '\n' || c = '\r'

/-- Drop leading JSON whitespace. -/
def skipWs : List Char → List Char
  | [] => []
  | c :: cs => if isWsC c then skipWs cs else c :: cs

/-- Decode of a single-character string escape. -/
def unescapeC (c : Char) : Option Char :=
  if c = '"' then some '"'
  else if c = '\\' then some '\\'
  else if c = '/' then some '/'
  else if c = 'n' then some '\n'
  else if c = 't' then some '\t'
  else if c = 'r' then some '\r'
  else none

/-- Parse the body of a JSON string, the opening quote already consumed;
returns the content and the remaining input. -/
def jstring : List Char → Option (String × List Char)
  | [] => none
  | c :: cs =>
    if c = '"' then some ("", cs)
    else if c = '\\' then
      match cs with
      | [] => none
      | d :: ds =>
        match unescapeC d with
        | none => none
        | some ch =>
          match jstring ds with
          | none => none
          | some (s, rest) => some (String.mk (ch :: s.data), rest)
    else
      match jstring cs with
      | none => none
      | some (s, rest) => some (String.mk (c :: s.data), rest)

/-- Consume an expected literal tail such as "rue" of true. -/
def expectLit : List Char → List Char → Option (List Char)
  | [], cs => some cs
  | _ :: _, [] => none
  | a :: ls, b :: cs => if a = b then expectLit ls cs else none

/-- Characters a JSON number is built from (consumed greedily when a value of
an unknown field is skipped). -/
def isNumC (c : Char) : Bool :=
  c.isDigit || c = '-' || c = '+' || c = '.' || c = 'e' || c = 'E'

/-- Consume the remaining characters of a number. -/
def skipNum : List Char → List Char
  | [] => []
  | c :: cs => if isNumC c then skipNum cs else c :: cs

mutual

/-- Skip one JSON value (used for object fields other than version/stable). -/
def skipJValue : Nat → List Char → Option (List Char)
  | 0, _ => none
  | fuel + 1, cs =>
    match skipWs cs with
    | [] => none
    | c :: rest =>
      if c = '"' then (jstring rest).map Prod.snd
      else if c = lbraceC then skipJMembers fuel rest
      else if c = '[' then skipJElems fuel rest
      else if c = 't' then expectLit "rue".data rest
      else if c = 'f' then expectLit "alse".data rest
      else if c = 'n' then expectLit "ull".data rest
      else if isNumC c then some (skipNum rest)
      else none

/-- Skip the members of an object, the opening brace already consumed. -/
def skipJMembers : Nat → List Char → Option (List Char)
  | 0, _ => none
  | fuel + 1, cs =>
    match skipWs cs with
    | [] => none
    | c :: rest =>
      if c = rbraceC then some rest
      else if c = '"' then
        match jstring rest with
        | none => none
        | some (_, rest1) =>
          match skipWs rest1 with
          | ':' :: rest2 =>
            match skipJValue fuel rest2 with
            | none => none
            | some rest3 =>
              match skipWs rest3 with
              | ',' :: rest4 => skipJMembers fuel rest4
              | c2 :: rest4 => if c2 = rbraceC then some rest4 else none
              | [] => none
          | _ => none
      else none

/-- Skip the elements of an array, the opening bracket already consumed. -/
def skipJElems : Nat → List Char → Option (List Char)
  | 0, _ => none
  | fuel + 1, cs =>
    match skipWs cs with
    | [] => none
    | c :: rest =>
      if c = ']' then some rest
      else
        match skipJValue fuel (c :: rest) with
        | none => none
        | some rest1 =>
          match skipWs rest1 with
          | ',' :: rest2 => skipJElems fuel rest2
          | c2 :: rest2 => if c2 = ']' then some rest2 else none
          | [] => none

end

mutual

/-- Parse the members of one release object, the opening brace already
consumed; acc carries the zero value of the Go struct, updated as the
version and stable fields are met (last occurrence wins, as in Go). -/
def parseReleaseMembers : Nat → List Char → Release → Option (Release × List Char)
  | 0, _, _ => none
  | fuel + 1, cs, acc =>
    match skipWs cs with
    | [] => none
    | c :: rest =>
      if c = rbraceC then some (acc, rest)
      else if c = '"' then
        match jstring rest with
        | none => none
        | some (key, rest1) =>
          match skipWs rest1 with
          | ':' :: rest2 =>
            let rest2 := skipWs rest2
            if key = "version" then
              match rest2 with
              | [] => none
              | c2 :: rest3 =>
                if c2 = '"' then
                  match jstring rest3 with
                  | none => none
                  | some (v, rest4) =>
                    parseReleaseTail fuel rest4 { acc with version := v }
                else none
            else if key = "stable" then
              match rest2 with
              | 't' :: rest3 =>
                match expectLit "rue".data rest3 with
                | none => none
                | some rest4 => parseReleaseTail fuel rest4 { acc with stable := true }
              | 'f' :: rest3 =>
                match expectLit "alse".data rest3 with
                | none => none
                | some rest4 => parseReleaseTail fuel rest4 { acc with stable := false }
              | _ => none
            else
              match skipJValue fuel rest2 with
              | none => none
              | some rest3 => parseReleaseTail fuel rest3 acc
          | _ => none
      else none

/-- After one member: a comma continues the object, a closing brace ends it. -/
def parseReleaseTail : Nat → List Char → Release → Option (Release × List Char)
  | 0, _, _ => none
  | fuel + 1, cs, acc =>
    match skipWs cs with
    | [] => none
    | c :: rest =>
      if c = ',' then parseReleaseMembers fuel rest acc
      else if c = rbraceC then some (acc, rest)
      else none

end

/-- Parse the elements of the top-level array, the opening bracket already
consumed; every element must be an object, as Unmarshal into goReleases
requires. -/
def parseReleasesElems : Nat → List Char → Option (List Release × List Char)
  | 0, _ => none
  | fuel + 1, cs =>
    match skipWs cs with
    | [] => none
    | c :: rest =>
      if c = ']' then some ([], rest)
      else if c = lbraceC then
        match parseReleaseMembers fuel rest ⟨"", false⟩ with
        | none => none
        | some (r, rest1) =>
          match skipWs rest1 with
          | ',' :: rest2 =>
            match parseReleasesElems fuel rest2 with
            | none => none
            | some (rs, rest3) => some (r :: rs, rest3)
          | c2 :: rest2 => if c2 = ']' then some (r :: [], rest2) else none
          | [] => none
      else none

/-- json.Unmarshal of a byte string into goReleases: a JSON array of release
objects (or null, which leaves the slice empty), with nothing but whitespace
after the top-level value. -/
def decodeReleases (s : String) : Except String (List Release) :=
  let fuel := 2 * s.data.length + 8
  match skipWs s.data with
  | 'n' :: 'u' :: 'l' :: 'l' :: rest =>
    if (skipWs rest).isEmpty then Except.ok []
    else Except.error "invalid character after top-level value"
  | '[' :: rest =>
    match parseReleasesElems fuel rest with
    | some (rs, rest1) =>
      if (skipWs rest1).isEmpty then Except.ok rs
      else Except.error "invalid character after top-level value"
    | none => Except.error "cannot unmarshal into goReleases"
  | _ => Except.error "cannot unmarshal into goReleases"

/-- Modelled from the spec: pkg/golang's network detector is not part of the
sources given; the spec's Network Policy Detector reports one of two values,
the default network or the alternative user network. -/
inductive NetworkPolicy where
  | defaultUserNetwork : NetworkPolicy
  | alternativeUserNetwork : NetworkPolicy
deriving DecidableEq

/-- The external inputs of one build, fixed for its duration: the override
environment variable (empty when unset), the manifest collaborator's answer
(golang.GoModVersion, empty when absent), the network policy, the outcome of
the catalog fetch subprocess and its body, the HTTP status probe as a function
of the URL, the outcome of the download-and-extract pipeline, and the files a
failed extraction leaves behind. -/
structure BuildEnv where
  runtimeVersionOverride : String
  goModVersion : String
  network : NetworkPolicy
  catalogFetchOk : Bool
  catalogBody : String
  httpStatus : String → Nat
  extractOk : Bool
  residueFiles : List String

/-- The layer state that survives across builds: the value persisted under the
version metadata key (empty when never written) and an abstraction of the
layer directory contents. -/
structure Layer where
  metaVersion : String
  files : List String
deriving DecidableEq

/-- Observable effects of one build, in chronological order. -/
inductive Event where
  | catalogFetch : String → Event
  | cacheHit : Event
  | cacheMiss : Event
  | clearLayer : Event
  | httpProbe : String → Event
  | download : String → Event
  | setMeta : String → String → Event
deriving DecidableEq

/-- The loop of parseVersionJSON (main.go lines 136-144): the first stable
release whose version is non-empty after stripping the "go" marker wins;
unstable releases and releases stripped to empty are skipped; an exhausted
list is the parse error naming goVersionURL. -/
def findStable : List Release → Except String String
  | [] => Except.error ("parsing latest stable version from " ++ quoteQ goVersionURL)
  | r :: rs =>
    if !r.stable then findStable rs
    else
      let v := trimGoPre r.version
      if v ≠ "" then Except.ok v else findStable rs

/-- parseVersionJSON (main.go lines 130-145): unmarshal the body, a failure
being wrapped with the decode-error message, then scan for the first usable
stable release.  Both error messages interpolate the goVersionURL constant. -/
def parseVersionJSON (jsonStr : String) : Except String String :=
  match decodeReleases jsonStr with
  | Except.error msg =>
    Except.error ("parsing JSON response from URL " ++ quoteQ goVersionURL ++ ": " ++ msg)
  | Except.ok releases => findStable releases

/-- latestGoVersion (main.go lines 119-128): pick the catalog URL by network
policy, run the curl subprocess, parse its stdout.  Per the spec's error
model, a transport failure of the subprocess is propagated as an error. -/
def latestGoVersion (e : BuildEnv) : Except String String × List Event :=
  let finalGoVersionURL :=
    match e.network with
    | NetworkPolicy.alternativeUserNetwork => goAltVersionURL
    | NetworkPolicy.defaultUserNetwork => goVersionURL
  if e.catalogFetchOk then
    (parseVersionJSON e.catalogBody, [Event.catalogFetch finalGoVersionURL])
  else
    (Except.error "executing curl", [Event.catalogFetch finalGoVersionURL])

/-- runtimeVersion (main.go lines 96-111): override, then go.mod, then the
latest catalog version, a catalog failure wrapped with "getting latest
version". -/
def runtimeVersion (e : BuildEnv) : Except String String × List Event :=
  if e.runtimeVersionOverride ≠ "" then
    (Except.ok e.runtimeVersionOverride, [])
  else if e.goModVersion ≠ "" then
    (Except.ok e.goModVersion, [])
  else
    match latestGoVersion e with
    | (Except.error msg, evs) => (Except.error ("getting latest version: " ++ msg), evs)
    | (Except.ok v, evs) => (Except.ok v, evs)

/-- The probe-failure and user-error message of buildFn (main.go lines 77,
79): Sprintf of the version, the failing URL, the status and the override
variable. -/
def archiveFailMsg (version url : String) (code : Nat) : String :=
  "Runtime version " ++ version ++ " does not exist at " ++ url ++ " (status " ++
    toString code ++ "). You can specify the version with " ++ envRuntimeVersion ++ "."

/-- Abstraction of the extracted toolchain tree the tar pipeline writes into
the layer for a version. -/
def installedFiles (version : String) : List String := ["go-toolchain-" ++ version]

/-- Outcome of one build: the returned error if any, the layer state left
behind, and the trace of effects. -/
structure BuildOut where
  result : Except String Unit
  layer : Layer
  trace : List Event

/-- The download-and-extract step followed by the metadata write (main.go
lines 88-90): on pipeline success the layer holds exactly the extracted tree
and the metadata records the version; on failure the build aborts with the
metadata untouched and whatever the interrupted pipeline left on disk. -/
def installStep (e : BuildEnv) (version finalArchiveURL : String) (l : Layer)
    (evs : List Event) : BuildOut :=
  if e.extractOk then
    { result := Except.ok ()
      layer := { metaVersion := version, files := installedFiles version }
      trace := evs ++ [Event.download finalArchiveURL, Event.setMeta versionKey version] }
  else
    { result := Except.error "extraction pipeline failed"
      layer := { metaVersion := l.metaVersion, files := e.residueFiles }
      trace := evs ++ [Event.download finalArchiveURL] }

/-- buildFn (main.go lines 57-94): resolve the version, compare it with the
persisted metadata, and on a miss clear the layer, probe the primary archive
URL, fall back to the alternate, then download, extract and persist. -/
def buildFn (e : BuildEnv) (l : Layer) : BuildOut :=
  match runtimeVersion e with
  | (Except.error msg, evs) => { result := Except.error msg, layer := l, trace := evs }
  | (Except.ok version, evs) =>
    let metaVersion := l.metaVersion
    if version = metaVersion then
      { result := Except.ok (), layer := l, trace := evs ++ [Event.cacheHit] }
    else
      let cleared : Layer := { metaVersion := l.metaVersion, files := [] }
      let archiveURL := sprintfS goURL version
      let archiveAltURL := sprintfS goAltURL version
      let code := e.httpStatus archiveURL
      let evs1 := evs ++ [Event.cacheMiss, Event.clearLayer, Event.httpProbe archiveURL]
      if code ≠ 200 then
        let code2 := e.httpStatus archiveAltURL
        let evs2 := evs1 ++ [Event.httpProbe archiveAltURL]
        if code2 ≠ 200 then
          { result := Except.error (archiveFailMsg version archiveAltURL code2)
            layer := cleared, trace := evs2 }
        else installStep e version archiveAltURL cleared evs2
      else installStep e version archiveURL cleared evs1

/-- The URLs downloaded from, in trace order. -/
def downloads (tr : List Event) : List String :=
  tr.filterMap fun ev =>
    match ev with
    | Event.download u => some u
    | _ => none

/-- Checks that every metadata write in the trace comes after a download has
happened; the flag records whether a download has been seen. -/
def metaOnlyAfterDownload : List Event → Bool → Bool
  | [], _ => true
  | Event.download _ :: tr, _ => metaOnlyAfterDownload tr true
  | Event.setMeta _ _ :: tr, seen => seen && metaOnlyAfterDownload tr seen
  | _ :: tr, seen => metaOnlyAfterDownload tr seen

/-- Checks that no probe or download precedes the layer wipe; the flag records
whether the wipe has been seen. -/
def wipeBeforeInstall : List Event → Bool → Bool
  | [], _ => true
  | Event.clearLayer :: tr, _ => wipeBeforeInstall tr true
  | Event.httpProbe _ :: tr, cleared => cleared && wipeBeforeInstall tr cleared
  | Event.download _ :: tr, cleared => cleared && wipeBeforeInstall tr cleared
  | _ :: tr, cleared => wipeBeforeInstall tr cleared

/-! Helper lemmas. -/

/-- The trace of version resolution is empty or a single catalog fetch. -/
lemma runtimeVersion_trace (e : BuildEnv) :
    (runtimeVersion e).2 = [] ∨
      ∃ url, (runtimeVersion e).2 = [Event.catalogFetch url] := by
  unfold runtimeVersion latestGoVersion
  by_cases h1 : e.runtimeVersionOverride = ""
  · by_cases h2 : e.goModVersion = ""
    · right
      refine ⟨match e.network with
        | NetworkPolicy.alternativeUserNetwork => goAltVersionURL
        | NetworkPolicy.defaultUserNetwork => goVersionURL, ?_⟩
      cases hf : e.catalogFetchOk
      · simp [h1, h2, hf]
      · rcases hp : parseVersionJSON e.catalogBody with msg | v
        · simp [h1, h2, hf, hp]
        · simp [h1, h2, hf, hp]
    · left
      simp [h1, h2]
  · left
    simp [h1]

/-- A string is an initial segment of itself followed by anything. -/
lemma leadsChars_append (p rest : List Char) : leadsChars p (p ++ rest) = true := by
  induction p with
  | nil => rfl
  | cons c cs ih => simp [leadsChars, ih]

/-- A character list contains any middle segment of itself. -/
lemma containsChars_append_mid (x sub y : List Char) :
    containsChars (x ++ sub ++ y) sub = true := by
  induction x with
  | nil =>
    cases sub with
    | nil => cases y <;> simp [containsChars, leadsChars]
    | cons s ss =>
      simp only [List.nil_append, List.cons_append, containsChars, Bool.or_eq_true]
      left
      have h := leadsChars_append (s :: ss) y
      simpa using h
  | cons c cs ih =>
    simp only [List.cons_append, containsChars, Bool.or_eq_true]
    right
    exact ih

/-- A string contains a substring once its character data splits around it. -/
lemma containsStr_of_data_eq (s sub : String) (x y : List Char)
    (h : s.data = x ++ sub.data ++ y) : containsStr s sub = true := by
  unfold containsStr
  rw [h]
  exact containsChars_append_mid x sub.data y

/-- A successful build leaves the resolved version in the layer metadata. -/
lemma buildFn_ok_parts (e : BuildEnv) (l : Layer)
    (h : (buildFn e l).result = Except.ok ()) :
    ∃ v, (runtimeVersion e).1 = Except.ok v ∧ (buildFn e l).layer.metaVersion = v := by
  rcases hrv : runtimeVersion e with ⟨res, evs⟩
  rcases res with msg | v
  · exfalso
    simp [buildFn, hrv] at h
  · refine ⟨v, rfl, ?_⟩
    by_cases hv : v = l.metaVersion
    · simp [buildFn, hrv, hv]
    · by_cases hp : e.httpStatus (sprintfS goURL v) ≠ 200
      · by_cases ha : e.httpStatus (sprintfS goAltURL v) ≠ 200
        · exfalso
          simp [buildFn, hrv, hv, hp, ha] at h
        · cases hx : e.extractOk
          · exfalso
            simp [buildFn, hrv, hv, hp, ha, installStep, hx] at h
          · simp [buildFn, hrv, hv, hp, ha, installStep, hx]
      · cases hx : e.extractOk
        · exfalso
          simp [buildFn, hrv, hv, hp, installStep, hx] at h
        · simp [buildFn, hrv, hv, hp, installStep, hx]

/-! Concrete inputs used by the witnesses and counterexamples. -/

/-- The catalog body of the spec's example scenario. -/
def exampleBody : String :=
  "[\x7b\"version\":\"go1.21.0\",\"stable\":false\x7d,\x7b\"version\":\"go1.20.5\",\"stable\":true\x7d]"

/-- The decoded releases of the example body. -/
def exampleReleases : List Release := [⟨"go1.21.0", false⟩, ⟨"go1.20.5", true⟩]

/-- A build environment with an override set and every other source present
and different, to witness the precedence of the override. -/
def overrideEnv : BuildEnv :=
  { runtimeVersionOverride := "custom-1.2.3-rc", goModVersion := "1.16",
    network := NetworkPolicy.alternativeUserNetwork, catalogFetchOk := true,
    catalogBody := exampleBody, httpStatus := fun _ => 200, extractOk := true,
    residueFiles := [] }

/-- A build environment with no override and a manifest version, the catalog
still reachable, to witness the manifest precedence. -/
def manifestEnv : BuildEnv :=
  { runtimeVersionOverride := "", goModVersion := "1.16",
    network := NetworkPolicy.defaultUserNetwork, catalogFetchOk := true,
    catalogBody := exampleBody, httpStatus := fun _ => 200, extractOk := true,
    residueFiles := [] }

/-- A build environment with neither override nor manifest, so the catalog is
consulted. -/
def catalogEnv : BuildEnv :=
  { runtimeVersionOverride := "", goModVersion := "",
    network := NetworkPolicy.defaultUserNetwork, catalogFetchOk := true,
    catalogBody := exampleBody, httpStatus := fun _ => 200, extractOk := true,
    residueFiles := [] }

/-- An empty layer never built before. -/
def freshLayer : Layer := { metaVersion := "", files := [] }

/-! Theorems for the claims. -/

/-- C1: for every non-empty value of the override environment variable, the
version resolver returns exactly that value, verbatim and without error,
whatever the manifest and the catalog say. -/
theorem override_used_verbatim (e : BuildEnv)
    (h : e.runtimeVersionOverride ≠ "") :
    (runtimeVersion e).1 = Except.ok e.runtimeVersionOverride := by
  unfold runtimeVersion
  simp [h]

/-- Witness for C1: the override wins over a differing manifest version and a
differing catalog, with no format validation of its unusual value. -/
theorem override_used_verbatim_witness :
    (runtimeVersion overrideEnv).1 = Except.ok "custom-1.2.3-rc" :=
  override_used_verbatim overrideEnv (by decide)

/-- C2: with the override empty and a non-empty manifest version, resolution
returns the manifest version whatever the catalog holds; and a catalog fetch
happens only when both the override and the manifest version are empty. -/
theorem manifest_version_precedence (e : BuildEnv) :
    (e.runtimeVersionOverride = "" → e.goModVersion ≠ "" →
      (runtimeVersion e).1 = Except.ok e.goModVersion)
    ∧ (∀ url, Event.catalogFetch url ∈ (runtimeVersion e).2 →
        e.runtimeVersionOverride = "" ∧ e.goModVersion = "") := by
  constructor
  · intro h1 h2
    unfold runtimeVersion
    simp [h1, h2]
  · intro url hmem
    by_cases h1 : e.runtimeVersionOverride = ""
    · by_cases h2 : e.goModVersion = ""
      · exact ⟨h1, h2⟩
      · exfalso
        revert hmem
        unfold runtimeVersion
        simp [h1, h2]
    · exfalso
      revert hmem
      unfold runtimeVersion
      simp [h1]

/-- Witness for C2: the manifest version 1.16 is resolved though the catalog
example would give 1.20.5, and a build environment whose trace holds a
catalog fetch has both higher-precedence sources empty. -/
theorem manifest_version_precedence_witness :
    (runtimeVersion manifestEnv).1 = Except.ok "1.16"
    ∧ (catalogEnv.runtimeVersionOverride = "" ∧ catalogEnv.goModVersion = "") :=
  ⟨(manifest_version_precedence manifestEnv).1 rfl (by decide),
   (manifest_version_precedence catalogEnv).2 goVersionURL (by decide)⟩

/-- C10: the well-formed empty JSON array is not a decode error: it decodes
to the empty release list and parseVersionJSON fails with the no-usable-
stable-release parse error naming goVersionURL. -/
theorem empty_array_no_stable_error :
    decodeReleases "[]" = Except.ok []
    ∧ parseVersionJSON "[]" =
        Except.error ("parsing latest stable version from " ++ quoteQ goVersionURL) := by
  exact ⟨rfl, rfl⟩

/-- The scan of findStable picks the head of the releases filtered to the
stable ones with a non-empty stripped version. -/
lemma findStable_eq_filterHead (rs : List Release) :
    findStable rs =
      match (rs.filter fun r => r.stable && !(trimGoPre r.version == "")).head? with
      | some r => Except.ok (trimGoPre r.version)
      | none =>
        Except.error ("parsing latest stable version from " ++ quoteQ goVersionURL) := by
  induction rs with
  | nil => rfl
  | cons r rs ih =>
    cases hs : r.stable
    · simpa [findStable, List.filter, hs] using ih
    · by_cases hv : trimGoPre r.version = ""
      · have hvb : (trimGoPre r.version == "") = true := beq_iff_eq.mpr hv
        simpa [findStable, List.filter, hs, hv, hvb] using ih
      · have hvb : (trimGoPre r.version == "") = false := beq_eq_false_iff_ne.mpr hv
        simp [findStable, List.filter, hs, hv, hvb]

/-- C3: with no override and no manifest version, the resolved version is the
version of the first catalog entry in array order that is stable and remains
non-empty once the leading "go" is stripped; with no such entry, resolution
fails with the wrapped parse error.  The example body of the spec is the
witness below. -/
theorem catalog_first_stable (e : BuildEnv) (rs : List Release)
    (hov : e.runtimeVersionOverride = "") (hmod : e.goModVersion = "")
    (hfetch : e.catalogFetchOk = true)
    (hdec : decodeReleases e.catalogBody = Except.ok rs) :
    (runtimeVersion e).1 =
      match (rs.filter fun r => r.stable && !(trimGoPre r.version == "")).head? with
      | some r => Except.ok (trimGoPre r.version)
      | none =>
        Except.error ("getting latest version: parsing latest stable version from " ++
          quoteQ goVersionURL) := by
  have hres : (runtimeVersion e).1 =
      (match findStable rs with
        | Except.ok v => Except.ok v
        | Except.error m => Except.error ("getting latest version: " ++ m)) := by
    have hps : parseVersionJSON e.catalogBody = findStable rs := by
      unfold parseVersionJSON
      rw [hdec]
    unfold runtimeVersion latestGoVersion
    rcases hf : findStable rs with m | v
    · rw [hf] at hps
      simp [hov, hmod, hfetch, hps]
    · rw [hf] at hps
      simp [hov, hmod, hfetch, hps]
  rw [hres, findStable_eq_filterHead]
  rcases hh : (rs.filter fun r => r.stable && !(trimGoPre r.version == "")).head? with _ | r
  · rw [hh]
    rfl
  · rw [hh]

/-- Witness for C3: on the spec's example catalog body, with no override and
no manifest version, resolution yields 1.20.5 (the unstable go1.21.0 entry is
skipped, the stable go1.20.5 entry has its leading go stripped). -/
theorem catalog_first_stable_witness :
    (runtimeVersion catalogEnv).1 = Except.ok "1.20.5" := by
  have h := catalog_first_stable catalogEnv exampleReleases rfl rfl rfl (by rfl)
  simpa [exampleReleases] using h

/-- C4: the build takes the cache-hit path exactly when the resolved version
and the persisted metadata value are equal as strings; a hit mutates nothing,
while any mismatch signals a miss and wipes the layer before any probe or
download step. -/
theorem cache_hit_iff_meta_equal (e : BuildEnv) (l : Layer) (v : String)
    (hres : (runtimeVersion e).1 = Except.ok v) :
    (v = l.metaVersion →
      (buildFn e l).result = Except.ok ()
      ∧ (buildFn e l).layer = l
      ∧ Event.cacheHit ∈ (buildFn e l).trace
      ∧ Event.cacheMiss ∉ (buildFn e l).trace
      ∧ Event.clearLayer ∉ (buildFn e l).trace)
    ∧ (v ≠ l.metaVersion →
      Event.cacheMiss ∈ (buildFn e l).trace
      ∧ Event.cacheHit ∉ (buildFn e l).trace
      ∧ Event.clearLayer ∈ (buildFn e l).trace
      ∧ wipeBeforeInstall (buildFn e l).trace false = true) := by
  rcases hrv : runtimeVersion e with ⟨res, evs⟩
  have hevs : evs = [] ∨ ∃ url, evs = [Event.catalogFetch url] := by
    have h := runtimeVersion_trace e
    rw [hrv] at h
    exact h
  have hres' : res = Except.ok v := by
    rw [hrv] at hres
    exact hres
  subst hres'
  constructor
  · intro hv
    have hb : buildFn e l =
        { result := Except.ok (), layer := l, trace := evs ++ [Event.cacheHit] } := by
      simp [buildFn, hrv, hv]
    rw [hb]
    rcases hevs with h | ⟨url, h⟩ <;> subst h <;> simp
  · intro hv
    rcases hevs with h | ⟨url, h⟩ <;> subst h <;>
    · by_cases hp : e.httpStatus (sprintfS goURL v) ≠ 200
      · by_cases ha : e.httpStatus (sprintfS goAltURL v) ≠ 200
        · simp [buildFn, hrv, hv, hp, ha, installStep, wipeBeforeInstall]
        · cases hx : e.extractOk <;>
            simp [buildFn, hrv, hv, hp, ha, installStep, hx, wipeBeforeInstall]
      · cases hx : e.extractOk <;>
          simp [buildFn, hrv, hv, hp, installStep, hx, wipeBeforeInstall]

/-- Witness for C4: on a fresh layer (empty persisted value) the example
build is a miss that wipes before probing, and on a layer already holding
1.20.5 it is a pure hit. -/
theorem cache_hit_iff_meta_equal_witness :
    ((buildFn catalogEnv { metaVersion := "1.20.5", files := ["go-toolchain-1.20.5"] }).result
        = Except.ok ()
      ∧ (buildFn catalogEnv { metaVersion := "1.20.5", files := ["go-toolchain-1.20.5"] }).layer
        = { metaVersion := "1.20.5", files := ["go-toolchain-1.20.5"] }
      ∧ Event.cacheHit ∈
        (buildFn catalogEnv { metaVersion := "1.20.5", files := ["go-toolchain-1.20.5"] }).trace
      ∧ Event.cacheMiss ∉
        (buildFn catalogEnv { metaVersion := "1.20.5", files := ["go-toolchain-1.20.5"] }).trace
      ∧ Event.clearLayer ∉
        (buildFn catalogEnv { metaVersion := "1.20.5", files := ["go-toolchain-1.20.5"] }).trace)
    ∧ (Event.cacheMiss ∈ (buildFn catalogEnv freshLayer).trace
      ∧ Event.cacheHit ∉ (buildFn catalogEnv freshLayer).trace
      ∧ Event.clearLayer ∈ (buildFn catalogEnv freshLayer).trace
      ∧ wipeBeforeInstall (buildFn catalogEnv freshLayer).trace false = true) :=
  ⟨(cache_hit_iff_meta_equal catalogEnv
      { metaVersion := "1.20.5", files := ["go-toolchain-1.20.5"] } "1.20.5"
      (by rfl)).1 rfl,
   (cache_hit_iff_meta_equal catalogEnv freshLayer "1.20.5" (by rfl)).2 (by decide)⟩

/-- The user-facing archive error interpolates the failing URL, its status
code and the override environment variable. -/
lemma archiveFailMsg_names (v url : String) (code : Nat) :
    containsStr (archiveFailMsg v url code) url = true
    ∧ containsStr (archiveFailMsg v url code) (toString code) = true
    ∧ containsStr (archiveFailMsg v url code) envRuntimeVersion = true := by
  refine ⟨?_, ?_, ?_⟩
  · refine containsStr_of_data_eq _ _
      ("Runtime version " ++ v ++ " does not exist at ").data
      (" (status " ++ toString code ++ "). You can specify the version with " ++
        envRuntimeVersion ++ ".").data ?_
    simp [archiveFailMsg, List.append_assoc]
  · refine containsStr_of_data_eq _ _
      ("Runtime version " ++ v ++ " does not exist at " ++ url ++ " (status ").data
      ("). You can specify the version with " ++ envRuntimeVersion ++ ".").data ?_
    simp [archiveFailMsg, List.append_assoc]
  · refine containsStr_of_data_eq _ _
      ("Runtime version " ++ v ++ " does not exist at " ++ url ++ " (status " ++
        toString code ++ "). You can specify the version with ").data (".").data ?_
    simp [archiveFailMsg, List.append_assoc]

/-- C5: on a cache miss, a non-OK probe of the primary archive URL always
leads to a probe of the alternate URL; when both probes are non-OK the build
fails with the user error naming the alternate URL, its status and the
override variable; a probe that answers OK makes its URL the one downloaded,
with no error at the probe step. -/
theorem mirror_fallback (e : BuildEnv) (l : Layer) (v : String)
    (hres : (runtimeVersion e).1 = Except.ok v) (hmiss : v ≠ l.metaVersion) :
    (e.httpStatus (sprintfS goURL v) ≠ 200 →
      Event.httpProbe (sprintfS goAltURL v) ∈ (buildFn e l).trace)
    ∧ (e.httpStatus (sprintfS goURL v) ≠ 200 → e.httpStatus (sprintfS goAltURL v) ≠ 200 →
      (buildFn e l).result = Except.error
          (archiveFailMsg v (sprintfS goAltURL v) (e.httpStatus (sprintfS goAltURL v)))
      ∧ containsStr (archiveFailMsg v (sprintfS goAltURL v) (e.httpStatus (sprintfS goAltURL v)))
          (sprintfS goAltURL v) = true
      ∧ containsStr (archiveFailMsg v (sprintfS goAltURL v) (e.httpStatus (sprintfS goAltURL v)))
          (toString (e.httpStatus (sprintfS goAltURL v))) = true
      ∧ containsStr (archiveFailMsg v (sprintfS goAltURL v) (e.httpStatus (sprintfS goAltURL v)))
          envRuntimeVersion = true)
    ∧ (e.httpStatus (sprintfS goURL v) = 200 →
        downloads (buildFn e l).trace = [sprintfS goURL v])
    ∧ (e.httpStatus (sprintfS goURL v) ≠ 200 → e.httpStatus (sprintfS goAltURL v) = 200 →
        downloads (buildFn e l).trace = [sprintfS goAltURL v]) := by
  rcases hrv : runtimeVersion e with ⟨res, evs⟩
  have hres' : res = Except.ok v := by
    rw [hrv] at hres
    exact hres
  subst hres'
  have hevs : evs = [] ∨ ∃ url, evs = [Event.catalogFetch url] := by
    have ht := runtimeVersion_trace e
    rw [hrv] at ht
    exact ht
  have hnames := archiveFailMsg_names v (sprintfS goAltURL v) (e.httpStatus (sprintfS goAltURL v))
  refine ⟨?_, ?_, ?_, ?_⟩
  · intro hp
    rcases hevs with h' | ⟨url', h'⟩ <;> subst h' <;>
    · by_cases ha : e.httpStatus (sprintfS goAltURL v) ≠ 200
      · simp [buildFn, hrv, hmiss, hp, ha, installStep]
      · cases hx : e.extractOk <;>
          simp [buildFn, hrv, hmiss, hp, ha, installStep, hx]
  · intro hp ha
    refine ⟨?_, hnames.1, hnames.2.1, hnames.2.2⟩
    rcases hevs with h' | ⟨url', h'⟩ <;> subst h' <;>
      simp [buildFn, hrv, hmiss, hp, ha, installStep]
  · intro hp
    rcases hevs with h' | ⟨url', h'⟩ <;> subst h' <;>
      cases hx : e.extractOk <;>
        simp [buildFn, hrv, hmiss, hp, installStep, hx, downloads]
  · intro hp ha
    rcases hevs with h' | ⟨url', h'⟩ <;> subst h' <;>
      cases hx : e.extractOk <;>
        simp [buildFn, hrv, hmiss, hp, ha, installStep, hx, downloads]

/-- A build environment whose archive probes both answer 404, the version
overridden so resolution is local. -/
def bothFailEnv : BuildEnv :=
  { runtimeVersionOverride := "1.20.5", goModVersion := "",
    network := NetworkPolicy.defaultUserNetwork, catalogFetchOk := true,
    catalogBody := "", httpStatus := fun _ => 404, extractOk := true,
    residueFiles := [] }

/-- A build environment where only the alternate archive URL answers OK. -/
def altOkEnv : BuildEnv :=
  { runtimeVersionOverride := "1.20.5", goModVersion := "",
    network := NetworkPolicy.defaultUserNetwork, catalogFetchOk := true,
    catalogBody := "", httpStatus := fun u => if u = sprintfS goAltURL "1.20.5" then 200 else 404,
    extractOk := true, residueFiles := [] }

/-- Witness for C5: with both probes at 404 the alternate is probed and the
build fails with the message naming the alternate URL, the status and the
override variable; with only the alternate at 200, the alternate is the URL
downloaded. -/
theorem mirror_fallback_witness :
    Event.httpProbe (sprintfS goAltURL "1.20.5") ∈ (buildFn bothFailEnv freshLayer).trace
    ∧ (buildFn bothFailEnv freshLayer).result =
        Except.error (archiveFailMsg "1.20.5" (sprintfS goAltURL "1.20.5") 404)
    ∧ containsStr (archiveFailMsg "1.20.5" (sprintfS goAltURL "1.20.5") 404)
        envRuntimeVersion = true
    ∧ downloads (buildFn altOkEnv freshLayer).trace = [sprintfS goAltURL "1.20.5"] := by
  have h1 := mirror_fallback bothFailEnv freshLayer "1.20.5" rfl (by decide)
  have h2 := mirror_fallback altOkEnv freshLayer "1.20.5" rfl (by decide)
  exact ⟨h1.1 (by decide), (h1.2.1 (by decide) (by decide)).1,
    (h1.2.1 (by decide) (by decide)).2.2.2, h2.2.2.2 (by decide) (by decide)⟩

/-- C6: a second build against the layer a successful build left behind, with
the same external inputs, is a pure cache hit: it succeeds, mutates neither
the layer contents nor the metadata, probes no archive URL, downloads
nothing and clears nothing. -/
theorem second_build_cache_hit (e : BuildEnv) (l : Layer)
    (h : (buildFn e l).result = Except.ok ()) :
    (buildFn e (buildFn e l).layer).result = Except.ok ()
    ∧ (buildFn e (buildFn e l).layer).layer = (buildFn e l).layer
    ∧ Event.cacheHit ∈ (buildFn e (buildFn e l).layer).trace
    ∧ (∀ url, Event.httpProbe url ∉ (buildFn e (buildFn e l).layer).trace)
    ∧ (∀ url, Event.download url ∉ (buildFn e (buildFn e l).layer).trace)
    ∧ Event.clearLayer ∉ (buildFn e (buildFn e l).layer).trace
    ∧ (∀ k w, Event.setMeta k w ∉ (buildFn e (buildFn e l).layer).trace) := by
  obtain ⟨v, hv, hmeta⟩ := buildFn_ok_parts e l h
  generalize hl1 : (buildFn e l).layer = l1 at hmeta ⊢
  rcases hrv : runtimeVersion e with ⟨res, evs⟩
  have hres : res = Except.ok v := by
    rw [hrv] at hv
    exact hv
  subst hres
  have hevs : evs = [] ∨ ∃ url, evs = [Event.catalogFetch url] := by
    have ht := runtimeVersion_trace e
    rw [hrv] at ht
    exact ht
  have hb2 : buildFn e l1 =
      { result := Except.ok (), layer := l1,
        trace := evs ++ [Event.cacheHit] } := by
    simp [buildFn, hrv, hmeta]
  rw [hb2]
  rcases hevs with h' | ⟨url', h'⟩ <;> subst h' <;> simp

/-- Witness for C6: after a successful miss-and-install build from the
override environment, the rerun is a hit that clears nothing. -/
theorem second_build_cache_hit_witness :
    (buildFn overrideEnv (buildFn overrideEnv freshLayer).layer).result = Except.ok ()
    ∧ Event.cacheHit ∈ (buildFn overrideEnv (buildFn overrideEnv freshLayer).layer).trace
    ∧ Event.clearLayer ∉ (buildFn overrideEnv (buildFn overrideEnv freshLayer).layer).trace := by
  have h := second_build_cache_hit overrideEnv freshLayer rfl
  exact ⟨h.1, h.2.2.1, h.2.2.2.2.2.1⟩

/-- C9: in every build the version metadata write happens only after a
download has happened in the trace; no metadata is written when the
extraction pipeline fails; and a successful build whose trace wrote a
version holds exactly that version's extracted tree and metadata. -/
theorem meta_written_after_download (e : BuildEnv) (l : Layer) :
    metaOnlyAfterDownload (buildFn e l).trace false = true
    ∧ (e.extractOk = false → ∀ k w, Event.setMeta k w ∉ (buildFn e l).trace)
    ∧ ((buildFn e l).result = Except.ok () →
        ∀ w, Event.setMeta versionKey w ∈ (buildFn e l).trace →
          (buildFn e l).layer = { metaVersion := w, files := installedFiles w }) := by
  rcases hrv : runtimeVersion e with ⟨res, evs⟩
  have hevs : evs = [] ∨ ∃ url, evs = [Event.catalogFetch url] := by
    have ht := runtimeVersion_trace e
    rw [hrv] at ht
    exact ht
  rcases res with msg | v
  · rcases hevs with h' | ⟨url', h'⟩ <;> subst h' <;>
      simp [buildFn, hrv, metaOnlyAfterDownload]
  · by_cases hv : v = l.metaVersion
    · rcases hevs with h' | ⟨url', h'⟩ <;> subst h' <;>
        simp [buildFn, hrv, hv, metaOnlyAfterDownload]
    · rcases hevs with h' | ⟨url', h'⟩ <;> subst h' <;>
      · by_cases hp : e.httpStatus (sprintfS goURL v) ≠ 200
        · by_cases ha : e.httpStatus (sprintfS goAltURL v) ≠ 200
          · simp [buildFn, hrv, hv, hp, ha, installStep, metaOnlyAfterDownload]
          · cases hx : e.extractOk <;>
              simp [buildFn, hrv, hv, hp, ha, installStep, hx, metaOnlyAfterDownload]
        · cases hx : e.extractOk <;>
            simp [buildFn, hrv, hv, hp, installStep, hx, metaOnlyAfterDownload]

/-- A build environment whose extraction pipeline fails after a successful
probe, leaving stray files behind. -/
def extractFailEnv : BuildEnv :=
  { runtimeVersionOverride := "1.20.5", goModVersion := "",
    network := NetworkPolicy.defaultUserNetwork, catalogFetchOk := true,
    catalogBody := "", httpStatus := fun _ => 200, extractOk := false,
    residueFiles := ["stray-bits"] }

/-- Witness for C9: the failing extraction writes no version metadata, and
its trace satisfies the write-after-download discipline. -/
theorem meta_written_after_download_witness :
    metaOnlyAfterDownload (buildFn extractFailEnv freshLayer).trace false = true
    ∧ Event.setMeta versionKey "1.20.5" ∉ (buildFn extractFailEnv freshLayer).trace := by
  have h := meta_written_after_download extractFailEnv freshLayer
  exact ⟨h.1, h.2.1 rfl versionKey "1.20.5"⟩

/-- The resolved value of runtimeVersion does not depend on the network
policy; the policy only picks which catalog URL the fetch subprocess is
pointed at. -/
lemma runtimeVersion_fst_network (e : BuildEnv) (p : NetworkPolicy) :
    (runtimeVersion { e with network := p }).1 = (runtimeVersion e).1 := by
  unfold runtimeVersion latestGoVersion
  by_cases h1 : e.runtimeVersionOverride = "" <;>
    by_cases h2 : e.goModVersion = "" <;>
      cases hf : e.catalogFetchOk <;>
        rcases hp : parseVersionJSON e.catalogBody with m | v <;>
          simp [h1, h2, hf, hp]

/-- On a cache miss, the URL downloaded is a function of the probe statuses
alone: the primary archive URL when it answers 200, the alternate when only
it answers 200, none when both fail. -/
lemma downloads_buildFn_miss (e : BuildEnv) (l : Layer) (v : String)
    (hres : (runtimeVersion e).1 = Except.ok v) (hmiss : v ≠ l.metaVersion) :
    downloads (buildFn e l).trace =
      (if e.httpStatus (sprintfS goURL v) = 200 then [sprintfS goURL v]
       else if e.httpStatus (sprintfS goAltURL v) = 200 then [sprintfS goAltURL v]
       else []) := by
  rcases hrv : runtimeVersion e with ⟨res, evs⟩
  have hres' : res = Except.ok v := by
    rw [hrv] at hres
    exact hres
  subst hres'
  have hevs : evs = [] ∨ ∃ url, evs = [Event.catalogFetch url] := by
    have ht := runtimeVersion_trace e
    rw [hrv] at ht
    exact ht
  rcases hevs with h' | ⟨url', h'⟩ <;> subst h' <;>
  · by_cases hp : e.httpStatus (sprintfS goURL v) = 200
    · cases hx : e.extractOk <;>
        simp [buildFn, hrv, hmiss, hp, installStep, hx, downloads]
    · by_cases ha : e.httpStatus (sprintfS goAltURL v) = 200
      · cases hx : e.extractOk <;>
          simp [buildFn, hrv, hmiss, hp, ha, installStep, hx, downloads]
      · simp [buildFn, hrv, hmiss, hp, ha, installStep, downloads]

/-- A build environment resolving by override, parameterized only by the
network policy, whose probes all answer 200. -/
def policyEnv (p : NetworkPolicy) : BuildEnv :=
  { runtimeVersionOverride := "1.20.5", goModVersion := "",
    network := p, catalogFetchOk := true, catalogBody := "",
    httpStatus := fun _ => 200, extractOk := true, residueFiles := [] }

/-- Counterexample for C7: in two cache-miss builds differing only in the
value reported by the network policy detector, the downloaded archive URL is
the same primary endpoint both times — under the alternative policy the
default endpoint is still used, so the archive endpoint is not selected by
the network policy. -/
theorem archive_endpoint_counterexample :
    downloads (buildFn (policyEnv NetworkPolicy.alternativeUserNetwork) freshLayer).trace
      = [sprintfS goURL "1.20.5"]
    ∧ downloads (buildFn (policyEnv NetworkPolicy.defaultUserNetwork) freshLayer).trace
      = [sprintfS goURL "1.20.5"]
    ∧ (sprintfS goURL "1.20.5" == sprintfS goAltURL "1.20.5") = false := by
  exact ⟨rfl, rfl, by decide⟩

/-- C7 as amended: on a cache miss, the archive endpoint is independent of
the network policy and is determined by the HTTP status probes alone —
primary when it answers 200, otherwise the alternate when it answers 200.
The network policy selects only the catalog endpoint. -/
theorem archive_endpoint_selected_by_probe (e : BuildEnv) (l : Layer) (v : String)
    (p : NetworkPolicy)
    (hres : (runtimeVersion e).1 = Except.ok v) (hmiss : v ≠ l.metaVersion) :
    downloads (buildFn { e with network := p } l).trace = downloads (buildFn e l).trace
    ∧ downloads (buildFn e l).trace =
        (if e.httpStatus (sprintfS goURL v) = 200 then [sprintfS goURL v]
         else if e.httpStatus (sprintfS goAltURL v) = 200 then [sprintfS goAltURL v]
         else []) := by
  have hres' : (runtimeVersion { e with network := p }).1 = Except.ok v :=
    (runtimeVersion_fst_network e p).trans hres
  have h1 := downloads_buildFn_miss { e with network := p } l v hres' hmiss
  have h2 := downloads_buildFn_miss e l v hres hmiss
  constructor
  · rw [h1, h2]
  · exact h2

/-- Witness for C7 as amended: a miss resolving 1.20.5 from go.mod downloads
from the primary endpoint under either policy value. -/
theorem archive_endpoint_selected_by_probe_witness :
    downloads (buildFn { manifestEnv with network := NetworkPolicy.alternativeUserNetwork }
        freshLayer).trace
      = downloads (buildFn manifestEnv freshLayer).trace
    ∧ downloads (buildFn manifestEnv freshLayer).trace =
        (if manifestEnv.httpStatus (sprintfS goURL "1.16") = 200 then [sprintfS goURL "1.16"]
         else if manifestEnv.httpStatus (sprintfS goAltURL "1.16") = 200 then
           [sprintfS goAltURL "1.16"]
         else []) :=
  archive_endpoint_selected_by_probe manifestEnv freshLayer "1.16"
    NetworkPolicy.alternativeUserNetwork rfl (by decide)

/-- A build environment under the alternative network policy whose catalog
answer is the empty array. -/
def altNetworkEnv : BuildEnv :=
  { runtimeVersionOverride := "", goModVersion := "",
    network := NetworkPolicy.alternativeUserNetwork, catalogFetchOk := true,
    catalogBody := "[]", httpStatus := fun _ => 200, extractOk := true,
    residueFiles := [] }

/-- Counterexample for C8: under the alternative network policy the catalog
is fetched from the alternate URL, yet the resulting parse error names the
default catalog URL and does not contain the alternate URL that was actually
selected for the policy. -/
theorem parse_error_url_counterexample :
    (runtimeVersion altNetworkEnv).2 = [Event.catalogFetch goAltVersionURL]
    ∧ (runtimeVersion altNetworkEnv).1 = Except.error
        ("getting latest version: parsing latest stable version from " ++ quoteQ goVersionURL)
    ∧ containsStr
        ("getting latest version: parsing latest stable version from " ++ quoteQ goVersionURL)
        goAltVersionURL = false := by
  exact ⟨rfl, rfl, by decide⟩

/-- The no-usable-stable-release error of the scan always carries the fixed
message naming goVersionURL. -/
lemma findStable_error (rs : List Release) (m : String)
    (h : findStable rs = Except.error m) :
    m = "parsing latest stable version from " ++ quoteQ goVersionURL := by
  induction rs with
  | nil =>
    simp [findStable] at h
    exact h.symm
  | cons r rs ih =>
    cases hs : r.stable
    · rw [findStable, hs] at h
      exact ih (by simpa using h)
    · by_cases hv : trimGoPre r.version = ""
      · rw [findStable, hs] at h
        simp [hv] at h
        exact ih h
      · rw [findStable, hs] at h
        simp [hv] at h

/-- C8 as amended: every error of parseVersionJSON — the JSON decode failure
and the no-usable-stable-release failure alike — names the default catalog
URL constant goVersionURL, regardless of which catalog endpoint the network
policy selected for the fetch. -/
theorem parse_errors_name_default_url (s m : String)
    (h : parseVersionJSON s = Except.error m) :
    containsStr m goVersionURL = true := by
  unfold parseVersionJSON at h
  rcases hd : decodeReleases s with dm | rs
  · rw [hd] at h
    injection h with hm
    subst hm
    refine containsStr_of_data_eq _ _ ("parsing JSON response from URL " ++ "\"").data
      ("\"" ++ ": " ++ dm).data ?_
    simp [quoteQ, List.append_assoc]
  · rw [hd] at h
    have hm := findStable_error rs m h
    subst hm
    refine containsStr_of_data_eq _ _ ("parsing latest stable version from " ++ "\"").data
      ("\"").data ?_
    simp [quoteQ, List.append_assoc]

/-- Witness for C8 as amended: the empty-array parse error names the default
catalog URL. -/
theorem parse_errors_name_default_url_witness :
    containsStr ("parsing latest stable version from " ++ quoteQ goVersionURL)
      goVersionURL = true :=
  parse_errors_name_default_url "[]"
    ("parsing latest stable version from " ++ quoteQ goVersionURL) rfl

end GoRuntime
